import Mathlib

/-!
Verification of the Dimacza ERP document subsystem (`src/index.js`).

This file gives a shallow embedding of the document issuance endpoints of
the Express/PostgreSQL server:

* `POST   /api/documents`            → `createDocument`
* `GET    /api/documents`            → `listDocuments`
* `PUT    /api/documents/:id/status` → `updateStatus`
* `DELETE /api/documents/:id`        → `deleteDocument`
* `GET    /api/documents/:id/ver`    → `renderDocumentView`

The relational store is modelled as explicit lists of rows; the single
`BEGIN … COMMIT/ROLLBACK` transaction of the writer is modelled by running
the inserts on a draft state and discarding it on failure.  Store-level
insert failures (the `catch` branch of the handler) are modelled by an
abstract failure oracle `fail : Nat → Bool` telling which insert of the
sequence fails (step 0 is the header insert, step `k+1` the `k`-th item
insert); this covers constraint violations and connection errors alike.

Monetary amounts are modelled with exact integer arithmetic (the rendered
documents are Chilean pesos, which have no subunits); `Math.round` applied
to `neto * 0.19` is modelled exactly on ℚ by `jsRound`.
-/

/-- JavaScript `Math.round x`: the nearest integer, halves rounding toward
positive infinity, i.e. `⌊x + 1/2⌋`, here on exact rationals. -/
def jsRound (x : ℚ) : ℤ := ⌊x + 1/2⌋

/-- JavaScript truthiness of an optional integer field of a JSON body:
`undefined`/`null` and `0` are falsy, every other number is truthy. -/
def jsTruthyInt : Option ℤ → Bool
  | some v => v != 0
  | none => false

/-- JavaScript truthiness of an optional string field: `undefined`/`null`
and the empty string are falsy. -/
def jsTruthyStr : Option String → Bool
  | some s => s != ""
  | none => false

/-- JavaScript `a || d` for an optional integer `a` and integer default. -/
def jsOrInt (a : Option ℤ) (d : ℤ) : ℤ :=
  match a with
  | some v => if v ≠ 0 then v else d
  | none => d

/-- JavaScript `a || d` for an optional string `a` and string default. -/
def jsOrStr (a : Option String) (d : String) : String :=
  match a with
  | some s => if s ≠ "" then s else d
  | none => d

/-- JavaScript `a || null` for an optional integer: a falsy value collapses
to `null`. -/
def jsOrNullInt (a : Option ℤ) : Option ℤ :=
  match a with
  | some v => if v ≠ 0 then some v else none
  | none => none

/-- JavaScript `a || null` for an optional string. -/
def jsOrNullStr (a : Option String) : Option String :=
  match a with
  | some s => if s ≠ "" then some s else none
  | none => none

/-- SQL `=` between two nullable strings: `NULL` compares equal to nothing
(the comparison is not TRUE, so a `WHERE` clause drops the row). -/
def sqlEqStr : Option String → Option String → Bool
  | some a, some b => a == b
  | _, _ => false

/-- SQL `=` between a nullable integer column and a non-null value. -/
def sqlEqIdOpt : Option ℤ → ℤ → Bool
  | some a, b => a == b
  | none, _ => false

/-- SQL `MAX` aggregate over a column: `NULL` (here `none`) on an empty
set, otherwise the maximum. -/
def sqlMax : List ℤ → Option ℤ
  | [] => none
  | x :: xs => some (xs.foldl max x)

/-- SQL `COALESCE(v, 0)`. -/
def coalesce0 (v : Option ℤ) : ℤ := v.getD 0

/-- One row of the `companies` table (only the columns the document
subsystem reads).  Columns are nullable in the schema, hence `Option`. -/
structure Company where
  id : ℤ
  name : Option String
  rut : Option String
  giro : Option String
  address : Option String
  city : Option String
  deriving DecidableEq

/-- One row of the `documents` table. -/
structure Document where
  id : ℤ
  type : Option String
  folio : ℤ
  company_id : Option ℤ
  date : Option String
  expiration_date : Option String
  status : Option String
  neto : ℤ
  tax : ℤ
  total : ℤ
  notes : Option String
  payment_terms : Option String
  delivery_time : Option String
  warranty : Option String
  reference : String
  parent_id : Option ℤ
  driver : String
  plate : String
  dispatch_type : String
  file_url : String
  deriving DecidableEq

/-- One row of the `document_items` table. -/
structure DocumentItem where
  id : ℤ
  document_id : ℤ
  product_id : Option ℤ
  name : Option String
  description : String
  quantity : ℤ
  price : ℤ
  total : ℤ
  deriving DecidableEq

/-- The relational store: the three tables touched by the document
subsystem, plus the `SERIAL` counters generating fresh ids. -/
structure DB where
  companies : List Company
  documents : List Document
  document_items : List DocumentItem
  nextDocumentId : ℤ
  nextItemId : ℤ
  deriving DecidableEq

/-- A freshly initialised store. -/
def emptyDB : DB :=
  { companies := [], documents := [], document_items := []
    nextDocumentId := 1, nextItemId := 1 }

/-- One entry of the `items` array of a creation request body. -/
structure ItemInput where
  product_id : Option ℤ
  name : Option String
  description : Option String
  quantity : ℤ
  price : ℤ
  deriving DecidableEq

/-- The JSON body of `POST /api/documents`.  Absent fields are `none`; an
absent `items` array behaves exactly like an empty one in the handler
(`if(items && items.length > 0)`), so it is modelled as a list. -/
structure CreateDocumentRequest where
  type : Option String
  company_id : Option ℤ
  date : Option String
  expiration_date : Option String
  items : List ItemInput
  notes : Option String
  payment_terms : Option String
  delivery_time : Option String
  warranty : Option String
  reference : Option String
  parent_id : Option ℤ
  status : Option String
  driver : Option String
  plate : Option String
  dispatch_type : Option String
  file_url : Option String
  folio : Option ℤ
  total : Option ℤ
  deriving DecidableEq

/-- A request with every field absent; concrete scenarios override the
fields they use. -/
def blankRequest : CreateDocumentRequest :=
  { type := none, company_id := none, date := none, expiration_date := none
    items := [], notes := none, payment_terms := none, delivery_time := none
    warranty := none, reference := none, parent_id := none, status := none
    driver := none, plate := none, dispatch_type := none, file_url := none
    folio := none, total := none }

/-- Folios of the documents matching `WHERE type = $1` for a nullable
parameter, in stored (creation) order. -/
def foliosOfType (db : DB) (t : Option String) : List ℤ :=
  (db.documents.filter (fun d => sqlEqStr d.type t)).map Document.folio

/-- The folio query of the handler:
`SELECT GREATEST(COALESCE(MAX(folio), 0) + 1, 6060) FROM documents WHERE type = $1`. -/
def folioQuery (db : DB) (t : Option String) : ℤ :=
  max (coalesce0 (sqlMax (foliosOfType db t)) + 1) 6060

/-- Folio resolution of the handler: `let nextFolio = req.body.folio;
if (!nextFolio) { … folio query … }` — a truthiness test, not a presence
test. -/
def resolveFolio (db : DB) (req : CreateDocumentRequest) : ℤ :=
  if jsTruthyInt req.folio then req.folio.getD 0 else folioQuery db req.type

/-- The accumulation `items.forEach(item => { neto += item.quantity *
item.price })` starting from `neto = 0`. -/
def computeNeto (items : List ItemInput) : ℤ :=
  items.foldl (fun acc it => acc + it.quantity * it.price) 0

/-- The tax line `tax = Math.round(neto * 0.19)`, on exact arithmetic. -/
def taxOf (neto : ℤ) : ℤ := jsRound ((neto : ℚ) * (19 / 100))

/-- Totals resolution of the handler: `let finalTotal = total || 0; let
neto = 0, tax = 0; if (items && items.length > 0) { … }`.  Returns
`(neto, tax, finalTotal)`. -/
def resolveTotals (items : List ItemInput) (total : Option ℤ) : ℤ × ℤ × ℤ :=
  if items.length > 0 then
    let neto := computeNeto items
    let tax := taxOf neto
    (neto, tax, neto + tax)
  else
    (0, 0, jsOrInt total 0)

/-- The item-insert loop: one `INSERT INTO document_items … (docId, …,
item.quantity * item.price)` per entry, each a potential failure point
(`fail step`). -/
def insertItemRows (fail : Nat → Bool) (docId : ℤ) :
    List ItemInput → DB → Nat → Except String DB
  | [], db, _ => .ok db
  | it :: rest, db, step =>
    if fail step then .error "item insert failed"
    else
      let row : DocumentItem :=
        { id := db.nextItemId, document_id := docId
          product_id := it.product_id, name := it.name
          description := jsOrStr it.description ""
          quantity := it.quantity, price := it.price
          total := it.quantity * it.price }
      insertItemRows fail docId rest
        { db with document_items := db.document_items ++ [row]
                  nextItemId := db.nextItemId + 1 }
        (step + 1)

/-- The header row built by the `INSERT INTO documents … RETURNING *` of
the handler, from the resolved folio and totals. -/
def headerRow (db : DB) (req : CreateDocumentRequest) : Document :=
  let folio := resolveFolio db req
  let totals := resolveTotals req.items req.total
  { id := db.nextDocumentId, type := req.type, folio := folio
    company_id := req.company_id, date := req.date
    expiration_date := jsOrNullStr req.expiration_date
    status := some (jsOrStr req.status "Emitida")
    neto := totals.1, tax := totals.2.1, total := totals.2.2
    notes := req.notes, payment_terms := req.payment_terms
    delivery_time := req.delivery_time, warranty := req.warranty
    reference := jsOrStr req.reference ""
    parent_id := jsOrNullInt req.parent_id
    driver := jsOrStr req.driver "", plate := jsOrStr req.plate ""
    dispatch_type := jsOrStr req.dispatch_type ""
    file_url := jsOrStr req.file_url "" }

/-- The body of the transaction of `POST /api/documents`: folio read,
header insert (failure point 0), then the item inserts (failure points
1, 2, …).  Returns the draft store and the created header row. -/
def createDocumentTx (fail : Nat → Bool) (req : CreateDocumentRequest)
    (db : DB) : Except String (DB × Document) :=
  if fail 0 then .error "document insert failed"
  else
    let doc := headerRow db req
    let db1 := { db with documents := db.documents ++ [doc]
                         nextDocumentId := db.nextDocumentId + 1 }
    match insertItemRows fail doc.id req.items db1 1 with
    | .ok db2 => .ok (db2, doc)
    | .error e => .error e

/-- `POST /api/documents`: the transaction body under `BEGIN … COMMIT`,
with `ROLLBACK` on any failure — the original store is returned untouched
together with the surfaced error. -/
def createDocument (fail : Nat → Bool) (req : CreateDocumentRequest)
    (db : DB) : DB × Except String Document :=
  match createDocumentTx fail req db with
  | .ok (db2, doc) => (db2, .ok doc)
  | .error e => (db, .error e)

/-- `PUT /api/documents/:id/status`:
`UPDATE documents SET status = $1 WHERE id = $2`. -/
def updateStatus (db : DB) (id : ℤ) (st : Option String) : DB :=
  { db with documents :=
      db.documents.map (fun d => if d.id == id then { d with status := st } else d) }

/-- `DELETE /api/documents/:id`: `DELETE FROM documents WHERE id = $1`;
the schema cascades the delete to `document_items`. -/
def deleteDocument (db : DB) (id : ℤ) : DB :=
  { db with
      documents := db.documents.filter (fun d => !(d.id == id))
      document_items := db.document_items.filter (fun it => !(it.document_id == id)) }

/-- `SELECT * FROM document_items WHERE document_id = $1`. -/
def docItems (db : DB) (docId : ℤ) : List DocumentItem :=
  db.document_items.filter (fun it => it.document_id == docId)

/-- Lowercasing used to model `ILIKE` (PostgreSQL compares both operands
case-insensitively): the character data of the string, each character
lowercased. -/
def lowerChars (s : String) : List Char := s.data.map Char.toLower

/-- SQL `LIKE` pattern matching over character lists: `%` matches any
(possibly empty) run of characters, `_` matches exactly one character, and
every other pattern character matches itself. -/
def likeMatch : List Char → List Char → Bool
  | [], l => l.isEmpty
  | a :: ps, l =>
    if a = '%' then
      likeMatch ps l ||
        (match l with
         | [] => false
         | _ :: t => likeMatch (a :: ps) t)
    else
      match l with
      | [] => false
      | c :: t => (if a = '_' then true else a == c) && likeMatch ps t
  termination_by p l => (p.length, l.length)

/-- `v ILIKE pat` for a nullable text operand: a `NULL` operand never
matches. -/
def sqlIlike (v : Option String) (pat : String) : Bool :=
  match v with
  | none => false
  | some s => likeMatch (lowerChars pat) (lowerChars s)

/-- The pattern the list handler builds around a search term:
`` params.push(`%${search}%`) ``. -/
def ilikePattern (s : String) : String := "%" ++ s ++ "%"

/-- The search condition of `GET /api/documents`:
`c.name ILIKE $k OR CAST(d.folio AS TEXT) ILIKE $k OR d.reference ILIKE $k`
with the wrapped pattern as the single parameter. -/
def searchCond (d : Document) (c : Company) (s : String) : Bool :=
  sqlIlike c.name (ilikePattern s) ||
    sqlIlike (some (toString d.folio)) (ilikePattern s) ||
    sqlIlike (some d.reference) (ilikePattern s)

/-- The join `FROM documents d JOIN companies c ON d.company_id = c.id`,
document-major. -/
def joinCompanies (db : DB) : List (Document × Company) :=
  db.documents.flatMap (fun d =>
    (db.companies.filter (fun c => sqlEqIdOpt d.company_id c.id)).map
      (fun c => (d, c)))

/-- `GET /api/documents`: the join, the conditionally added `WHERE`
clauses (`if(type)` and `if(search)` are truthiness tests on the query
parameters, combined with `AND`), then `ORDER BY d.id DESC`. -/
def listDocuments (db : DB) (type? search? : Option String) :
    List (Document × Company) :=
  let base := joinCompanies db
  let afterType :=
    if jsTruthyStr type? then base.filter (fun p => sqlEqStr p.1.type type?)
    else base
  let afterSearch :=
    if jsTruthyStr search? then
      afterType.filter (fun p => searchCond p.1 p.2 (search?.getD ""))
    else afterType
  afterSearch.mergeSort (fun a b => decide (b.1.id ≤ a.1.id))

/-- `GET /api/documents` response rows: each matched document paired with
its company row and its items. -/
def listDocumentsWithItems (db : DB) (type? search? : Option String) :
    List (Document × Company × List DocumentItem) :=
  (listDocuments db type? search?).map (fun p => (p.1, p.2, docItems db p.1.id))

/-- The data of the printable SII-styled page produced by
`GET /api/documents/:id/ver`: the red-box block, the client block with its
placeholder defaults, the item table rows (each line total recomputed as
`item.quantity * item.price` in the template), and the totals block. -/
structure RenderedPage where
  folio : ℤ
  issueDate : Option String
  clientName : Option String
  clientRut : String
  clientGiro : String
  clientAddress : String
  clientCity : String
  itemRows : List (Option String × ℤ × ℤ × ℤ)
  neto : ℤ
  tax : ℤ
  total : ℤ
  deriving DecidableEq

/-- Page construction from the fetched rows, following the HTML template:
`doc.company_rut || 'Sin RUT'`, `doc.company_giro || 'Comercial'`,
`doc.company_address || 'Sin dirección'`, `doc.company_city || ''`. -/
def buildPage (d : Document) (c : Company) (items : List DocumentItem) :
    RenderedPage :=
  { folio := d.folio, issueDate := d.date, clientName := c.name
    clientRut := jsOrStr c.rut "Sin RUT"
    clientGiro := jsOrStr c.giro "Comercial"
    clientAddress := jsOrStr c.address "Sin dirección"
    clientCity := jsOrStr c.city ""
    itemRows := items.map (fun it => (it.name, it.quantity, it.price, it.quantity * it.price))
    neto := d.neto, tax := d.tax, total := d.total }

/-- `GET /api/documents/:id/ver`: the single-document join
(`… WHERE d.id = $1`); an empty row set is answered with 404 (`none`),
otherwise the page is built from the first row and the item lookup. -/
def renderDocumentView (db : DB) (id : ℤ) : Option RenderedPage :=
  let rows :=
    (db.documents.filter (fun d => d.id == id)).flatMap (fun d =>
      (db.companies.filter (fun c => sqlEqIdOpt d.company_id c.id)).map
        (fun c => (d, c)))
  match rows with
  | [] => none
  | (d, c) :: _ => some (buildPage d c (docItems db d.id))

/-- The render endpoint as a state transformer: it issues only `SELECT`s,
so the store it leaves behind is the one it was given. -/
def renderEndpoint (db : DB) (id : ℤ) : Option RenderedPage × DB :=
  (renderDocumentView db id, db)

/-- One mutating request against the document endpoints. -/
inductive Op where
  | create (fail : Nat → Bool) (req : CreateDocumentRequest)
  | setStatus (id : ℤ) (st : Option String)
  | remove (id : ℤ)

/-- The store after serving one request. -/
def applyOp (db : DB) : Op → DB
  | .create fail req => (createDocument fail req db).1
  | .setStatus id st => updateStatus db id st
  | .remove id => deleteDocument db id

/-- The store after serving a sequence of requests. -/
def runOps (db : DB) : List Op → DB
  | [] => db
  | op :: rest => runOps (applyOp db op) rest

/-- A creation request takes the automatic allocation path exactly when
its `folio` field is falsy. -/
def opAuto : Op → Bool
  | .create _ req => !jsTruthyInt req.folio
  | _ => true

/-- Every creation of the trace uses automatic folio allocation. -/
def autoOps (ops : List Op) : Bool := ops.all opAuto

/-! Concrete scenarios used by witnesses and counterexamples. -/

/-- A failure oracle under which every insert succeeds. -/
def neverFail : Nat → Bool := fun _ => false

/-- A failure oracle under which the first item insert (step 1) fails. -/
def failAtFirstItem : Nat → Bool := fun n => n == 1

/-- A line item of 2 × 1000. -/
def itemTwoThousand : ItemInput :=
  { product_id := none, name := some "Item A", description := none
    quantity := 2, price := 1000 }

/-- A quotation request carrying one line item of 2 × 1000. -/
def reqOneItem : CreateDocumentRequest :=
  { blankRequest with type := some "COT", items := [itemTwoThousand] }

/-- An invoice creation request with no caller-supplied folio. -/
def reqINV : CreateDocumentRequest :=
  { blankRequest with type := some "INV", company_id := some 1 }

/-- The header row persisted for `reqINV` on an empty store. -/
def invDoc : Document := headerRow emptyDB reqINV

/-- The store after creating `reqINV` on an empty store. -/
def dbINV : DB := (createDocument neverFail reqINV emptyDB).1

/-- A manually imported document: no items, caller-supplied total 5000. -/
def reqManualTotal : CreateDocumentRequest :=
  { blankRequest with type := some "FAC", total := some 5000 }

/-- The header row persisted for `reqManualTotal` on an empty store. -/
def manualDoc : Document := headerRow emptyDB reqManualTotal

/-- The store after creating `reqManualTotal` on an empty store. -/
def dbManual : DB := (createDocument neverFail reqManualTotal emptyDB).1

/-- An invoice creation request whose caller supplies the falsy folio 0. -/
def reqFolioZero : CreateDocumentRequest :=
  { blankRequest with type := some "FAC", folio := some 0 }

/-- An invoice creation request whose caller supplies folio 7. -/
def reqFolioSeven : CreateDocumentRequest :=
  { blankRequest with type := some "FAC", folio := some 7 }

/-- A store already holding a FAC document with folio 7: used to show no
uniqueness check is made against an explicitly supplied folio. -/
def dbWithFolioSeven : DB := (createDocument neverFail reqFolioSeven emptyDB).1

/-- The trace: automatically allocate an INV folio, delete that document,
then allocate again. -/
def opsReuse : List Op :=
  [.create neverFail reqINV, .remove 1, .create neverFail reqINV]

/-- A four-request trace with only automatic allocations, exercising the
folio invariant across a deletion. -/
def opsAutoSample : List Op :=
  [.create neverFail reqINV, .create neverFail reqINV, .remove 1,
   .create neverFail reqINV]

/-- Specification-side notion: `p` is a leading run of `l`. -/
def leadsWith : List Char → List Char → Bool
  | [], _ => true
  | _ :: _, [] => false
  | a :: ps, c :: t => a == c && leadsWith ps t

/-- Specification-side notion: `p` occurs contiguously inside `l`
(case handling is done by the caller). -/
def occursIn (p : List Char) : List Char → Bool
  | [] => p.isEmpty
  | c :: t => leadsWith p (c :: t) || occursIn p t

/-- A character list free of the SQL `LIKE` wildcards `%` and `_`. -/
def noWildcards (cs : List Char) : Bool :=
  cs.all (fun ch => !(ch == '%') && !(ch == '_'))

/-- Every field of a document other than its mutable `status`. -/
def docSansStatus (d : Document) :=
  (d.id, d.type, d.folio, d.company_id, d.date, d.expiration_date, d.neto,
   d.tax, d.total, d.notes, d.payment_terms, d.delivery_time, d.warranty,
   d.reference, d.parent_id, d.driver, d.plate, d.dispatch_type, d.file_url)

/-- Per-type folio discipline: for every (non-null) document type, the
folios of the stored documents of that type, in stored (creation) order,
are strictly increasing — in particular pairwise distinct. -/
def folioInvariant (db : DB) : Prop :=
  ∀ t : String, (foliosOfType db (some t)).Pairwise (· < ·)

/-- A sample client company. -/
def companyAcme : Company :=
  { id := 1, name := some "Acme Ltda", rut := some "76.000.111-2"
    giro := some "Comercio", address := some "Calle Uno 123"
    city := some "Santiago" }

/-- A stored invoice of `companyAcme`. -/
def docFac1 : Document :=
  { id := 1, type := some "FAC", folio := 6060, company_id := some 1
    date := some "2024-05-01", expiration_date := none
    status := some "Emitida", neto := 1000, tax := 190, total := 1190
    notes := none, payment_terms := none, delivery_time := none
    warranty := none, reference := "OC-77", parent_id := none
    driver := "", plate := "", dispatch_type := "", file_url := "" }

/-- A stored quotation of `companyAcme`. -/
def docCot2 : Document :=
  { id := 2, type := some "COT", folio := 6100, company_id := some 1
    date := some "2024-06-01", expiration_date := none
    status := some "Emitida", neto := 500, tax := 95, total := 595
    notes := none, payment_terms := none, delivery_time := none
    warranty := none, reference := "", parent_id := none
    driver := "", plate := "", dispatch_type := "", file_url := "" }

/-- A store holding one company and one document. -/
def dbOneDoc : DB :=
  { companies := [companyAcme], documents := [docFac1]
    document_items := [], nextDocumentId := 2, nextItemId := 1 }

/-- A store holding one company and two documents. -/
def dbTwoDocs : DB :=
  { companies := [companyAcme], documents := [docFac1, docCot2]
    document_items := [], nextDocumentId := 3, nextItemId := 1 }

/-- The header row persisted for `reqFolioZero` on `dbWithFolioSeven`. -/
def folioZeroDoc : Document := headerRow dbWithFolioSeven reqFolioZero

/-- The store after creating `reqFolioZero` on `dbWithFolioSeven`. -/
def dbFolioZero : DB := (createDocument neverFail reqFolioZero dbWithFolioSeven).1

/-- The tax line computed by an integer division: `Math.round(neto * 0.19)`
equals `(19 * neto + 50) / 100` (Euclidean division), which the kernel can
evaluate on concrete inputs. -/
theorem taxOf_fdiv (n : ℤ) : taxOf n = (19 * n + 50) / ((100 : ℕ) : ℤ) := by
  have h : (n : ℚ) * (19 / 100) + 1 / 2 = ((19 * n + 50 : ℤ) : ℚ) / ((100 : ℕ) : ℚ) := by
    push_cast; ring
  rw [taxOf, jsRound, h, Rat.floor_intCast_div_natCast]

/-- A successful item-insert loop leaves every table except
`document_items` untouched and appends exactly one row per input item. -/
theorem insertItemRows_ok (fail : Nat → Bool) (docId : ℤ) :
    ∀ (items : List ItemInput) (db db2 : DB) (step : Nat),
      insertItemRows fail docId items db step = .ok db2 →
      db2.documents = db.documents ∧ db2.companies = db.companies ∧
        db2.nextDocumentId = db.nextDocumentId ∧
        db2.document_items.length = db.document_items.length + items.length
  | [], db, db2, step, h => by
    simp only [insertItemRows, Except.ok.injEq] at h
    subst h
    simp
  | it :: rest, db, db2, step, h => by
    rw [insertItemRows] at h
    by_cases hf : fail step
    · simp [hf] at h
    · simp only [hf, Bool.false_eq_true, if_false] at h
      obtain ⟨h1, h2, h3, h4⟩ := insertItemRows_ok fail docId rest _ db2 (step + 1) h
      refine ⟨h1, h2, h3, ?_⟩
      simp only [List.length_append, List.length_cons, List.length_nil] at h4 ⊢
      omega

/-- Elimination form of a successful creation: the header insert did not
fail, the returned document is the built header row, and the item loop ran
to completion on the draft store holding the appended header. -/
theorem createDocument_ok_elim {fail : Nat → Bool} {req : CreateDocumentRequest}
    {db db2 : DB} {doc : Document}
    (h : createDocument fail req db = (db2, .ok doc)) :
    fail 0 = false ∧ doc = headerRow db req ∧
      insertItemRows fail (headerRow db req).id req.items
        { db with documents := db.documents ++ [headerRow db req]
                  nextDocumentId := db.nextDocumentId + 1 } 1 = .ok db2 := by
  by_cases hf : fail 0
  · exfalso
    simp [createDocument, createDocumentTx, hf] at h
  · cases hrows : insertItemRows fail (headerRow db req).id req.items
        { db with documents := db.documents ++ [headerRow db req]
                  nextDocumentId := db.nextDocumentId + 1 } 1 with
    | error e =>
      exfalso
      simp [createDocument, createDocumentTx, hf, hrows] at h
    | ok dbr =>
      simp only [createDocument, createDocumentTx, hf, Bool.false_eq_true,
        if_false, hrows, Prod.mk.injEq, Except.ok.injEq] at h
      obtain ⟨h1, h2⟩ := h
      subst h1
      exact ⟨by simpa using hf, h2.symm, rfl⟩

/-- A failed creation rolls back: the store component of the result is the
original store. -/
theorem createDocument_error_state {fail : Nat → Bool}
    {req : CreateDocumentRequest} {db : DB} {e : String}
    (h : (createDocument fail req db).2 = .error e) :
    (createDocument fail req db).1 = db := by
  rw [createDocument] at h ⊢
  cases htx : createDocumentTx fail req db with
  | error e2 => simp [htx]
  | ok p => rw [htx] at h; simp at h

/-- The forEach accumulation computes the sum of the per-item products. -/
theorem computeNeto_sum (items : List ItemInput) :
    computeNeto items = (items.map (fun it => it.quantity * it.price)).sum := by
  suffices h : ∀ (acc : ℤ) (l : List ItemInput),
      l.foldl (fun acc it => acc + it.quantity * it.price) acc =
        acc + (l.map (fun it => it.quantity * it.price)).sum by
    simpa [computeNeto] using h 0 items
  intro acc l
  induction l generalizing acc with
  | nil => simp
  | cons x xs ih => simp [List.foldl_cons, ih]; ring

/-- `total || 0` agrees with the supplied total whenever one is supplied
(a supplied 0 collapses to the default 0, which is again the supplied
value). -/
theorem jsOrInt_zero_getD (t : Option ℤ) : jsOrInt t 0 = t.getD 0 := by
  cases t with
  | none => rfl
  | some v =>
    by_cases hv : v = 0
    · simp [jsOrInt, hv]
    · simp [jsOrInt, hv]

/-- Totals resolution on a non-empty item list. -/
theorem resolveTotals_pos (items : List ItemInput) (total : Option ℤ)
    (h : items ≠ []) :
    resolveTotals items total =
      (computeNeto items, taxOf (computeNeto items),
        computeNeto items + taxOf (computeNeto items)) := by
  rw [resolveTotals, if_pos (List.length_pos.mpr h)]

/-- Totals resolution on an empty item list. -/
theorem resolveTotals_nil (total : Option ℤ) :
    resolveTotals [] total = (0, 0, jsOrInt total 0) := rfl

/-- C1.  For every document creation request: if the items list is
non-empty, the persisted document has `neto = Σ quantity·price`,
`tax = round(0.19·neto)`, `total = neto + tax`, and any caller-supplied
total is ignored (the stored total is `neto + tax` whatever `req.total`
was); if the items list is empty or absent, `neto` and `tax` are 0 and
`total` equals the caller-supplied total, 0 when none was supplied. -/
theorem C1_totals_resolution (fail : Nat → Bool) (req : CreateDocumentRequest)
    (db db2 : DB) (doc : Document)
    (h : createDocument fail req db = (db2, .ok doc)) :
    db2.documents = db.documents ++ [doc] ∧
    (req.items ≠ [] →
      doc.neto = (req.items.map (fun it => it.quantity * it.price)).sum ∧
      doc.tax = jsRound ((19 / 100 : ℚ) * (doc.neto : ℚ)) ∧
      doc.total = doc.neto + doc.tax) ∧
    (req.items = [] →
      doc.neto = 0 ∧ doc.tax = 0 ∧ doc.total = req.total.getD 0) := by
  obtain ⟨-, hdoc, hrows⟩ := createDocument_ok_elim h
  obtain ⟨hdocs, -, -, -⟩ :=
    insertItemRows_ok fail (headerRow db req).id req.items _ db2 1 hrows
  have hneto : doc.neto = (resolveTotals req.items req.total).1 := by rw [hdoc]; rfl
  have htax : doc.tax = (resolveTotals req.items req.total).2.1 := by rw [hdoc]; rfl
  have htotal : doc.total = (resolveTotals req.items req.total).2.2 := by rw [hdoc]; rfl
  refine ⟨by rw [hdocs, hdoc], ?_, ?_⟩
  · intro hne
    rw [resolveTotals_pos req.items req.total hne] at hneto htax htotal
    simp only at hneto htax htotal
    refine ⟨by rw [hneto, computeNeto_sum], ?_, by rw [htotal, hneto, htax]⟩
    rw [htax, hneto, taxOf, mul_comm]
  · intro hnil
    rw [hnil, resolveTotals_nil req.total] at hneto htax htotal
    exact ⟨hneto, htax, by rw [htotal]; exact jsOrInt_zero_getD req.total⟩

/-- Witness for C1 at the manual-import scenario: a creation with no items
and caller total 5000 persists `neto = 0`, `tax = 0`, `total = 5000`. -/
theorem C1_totals_resolution_witness :
    manualDoc.neto = 0 ∧ manualDoc.tax = 0 ∧ manualDoc.total = 5000 := by
  have h := (C1_totals_resolution neverFail reqManualTotal emptyDB dbManual
    manualDoc rfl).2.2 rfl
  simpa using h

/-- C2.  A creation request with no caller-supplied folio is assigned
`greatest(max existing folio of the type + 1, 6060)`; with no documents of
the type, exactly 6060. -/
theorem C2_auto_folio (fail : Nat → Bool) (req : CreateDocumentRequest)
    (db db2 : DB) (doc : Document)
    (hfolio : req.folio = none)
    (h : createDocument fail req db = (db2, .ok doc)) :
    (∀ m, sqlMax (foliosOfType db req.type) = some m →
      doc.folio = max (m + 1) 6060) ∧
    (foliosOfType db req.type = [] → doc.folio = 6060) := by
  obtain ⟨-, hdoc, -⟩ := createDocument_ok_elim h
  have hres : doc.folio = folioQuery db req.type := by
    rw [hdoc]
    show resolveFolio db req = _
    rw [resolveFolio, hfolio]
    rfl
  constructor
  · intro m hm
    rw [hres, folioQuery, hm]
    rfl
  · intro hnil
    rw [hres, folioQuery, hnil]
    rfl

/-- Witness for C2 at the spec scenario: the first INV document of an
empty store gets folio exactly 6060. -/
theorem C2_auto_folio_witness :
    reqINV.folio = none ∧ foliosOfType emptyDB reqINV.type = [] ∧
      invDoc.folio = 6060 :=
  ⟨rfl, rfl,
    (C2_auto_folio neverFail reqINV emptyDB dbINV invDoc rfl rfl).2 rfl⟩

/-- C3.  Atomicity of the creation sequence: on any failure (header insert
or any item insert) the store is exactly the original one — no header row
and no item rows of the attempt are observable; on success exactly one
document row and exactly `len(items)` item rows were added. -/
theorem C3_atomic_unit_of_work (fail : Nat → Bool)
    (req : CreateDocumentRequest) (db : DB) :
    (∀ e, (createDocument fail req db).2 = .error e →
      (createDocument fail req db).1 = db) ∧
    (∀ doc, (createDocument fail req db).2 = .ok doc →
      (createDocument fail req db).1.documents.length = db.documents.length + 1 ∧
      (createDocument fail req db).1.document_items.length =
        db.document_items.length + req.items.length) := by
  constructor
  · intro e he
    exact createDocument_error_state he
  · intro doc hok
    have h : createDocument fail req db =
        ((createDocument fail req db).1, (createDocument fail req db).2) := rfl
    rw [hok] at h
    obtain ⟨-, -, hrows⟩ := createDocument_ok_elim h
    obtain ⟨hdocs, -, -, hlen⟩ :=
      insertItemRows_ok fail (headerRow db req).id req.items _ _ 1 hrows
    constructor
    · rw [hdocs]
      simp
    · rw [hlen]

/-- Witness for C3: with the first item insert failing, the attempt
surfaces an error and leaves the empty store untouched. -/
theorem C3_atomic_unit_of_work_witness :
    (createDocument failAtFirstItem reqOneItem emptyDB).2 =
        .error "item insert failed" ∧
      (createDocument failAtFirstItem reqOneItem emptyDB).1 = emptyDB :=
  ⟨rfl, (C3_atomic_unit_of_work failAtFirstItem reqOneItem emptyDB).1
    "item insert failed" rfl⟩

/-- When the oracle reports no failure, the item-insert loop completes. -/
theorem insertItemRows_succeeds (fail : Nat → Bool) (h : ∀ n, fail n = false)
    (docId : ℤ) :
    ∀ (items : List ItemInput) (db : DB) (step : Nat),
      ∃ db2, insertItemRows fail docId items db step = .ok db2
  | [], db, _ => ⟨db, rfl⟩
  | it :: rest, db, step => by
    rw [insertItemRows, h step]
    simp only [Bool.false_eq_true, if_false]
    exact insertItemRows_succeeds fail h docId rest _ (step + 1)

/-- When the oracle reports no failure, the creation commits and returns
the built header row. -/
theorem createDocument_succeeds (fail : Nat → Bool)
    (req : CreateDocumentRequest) (db : DB) (h : ∀ n, fail n = false) :
    ∃ db2, createDocument fail req db = (db2, .ok (headerRow db req)) := by
  obtain ⟨db2, hrows⟩ := insertItemRows_succeeds fail h (headerRow db req).id
    req.items
    { db with documents := db.documents ++ [headerRow db req]
              nextDocumentId := db.nextDocumentId + 1 } 1
  refine ⟨db2, ?_⟩
  rw [createDocument, createDocumentTx, h 0]
  simp only [Bool.false_eq_true, if_false, hrows]

/-- Counterexample to C5 as stated: the caller explicitly supplies
`folio = 0`, yet the stored folio is the automatically allocated 6060, not
the supplied value. -/
theorem C5_explicit_folio_counterexample :
    reqFolioZero.folio = some 0 ∧
    (createDocument neverFail reqFolioZero emptyDB).1.documents.map
        Document.folio = [6060] ∧
    (createDocument neverFail reqFolioZero emptyDB).1.documents.map
        Document.folio ≠ [0] := by
  refine ⟨rfl, by decide, by decide⟩

/-- C5 (amended to truthy folios).  A caller-supplied folio that is truthy
(a nonzero integer) is stored verbatim — no allocation — and no
uniqueness check is made: with no store-level failure the creation
succeeds on every store, also one already holding that folio for that
type. -/
theorem C5_explicit_folio_verbatim (fail : Nat → Bool)
    (req : CreateDocumentRequest) (db : DB) (v : ℤ)
    (hf : req.folio = some v) (hv : v ≠ 0) :
    (∀ db2 doc, createDocument fail req db = (db2, .ok doc) → doc.folio = v) ∧
    ((∀ n, fail n = false) →
      ∃ db2 doc, createDocument fail req db = (db2, .ok doc) ∧ doc.folio = v) := by
  have hfol : resolveFolio db req = v := by
    rw [resolveFolio, hf]
    simp [jsTruthyInt, hv]
  constructor
  · intro db2 doc h
    obtain ⟨-, hdoc, -⟩ := createDocument_ok_elim h
    rw [hdoc]
    exact hfol
  · intro hnf
    obtain ⟨db2, hcd⟩ := createDocument_succeeds fail req db hnf
    exact ⟨db2, headerRow db req, hcd, hfol⟩

/-- Witness for the amended C5: on a store already holding a FAC document
with folio 7, creating with explicit folio 7 again succeeds and stores 7
verbatim — duplicate folios included. -/
theorem C5_explicit_folio_witness :
    foliosOfType dbWithFolioSeven (some "FAC") = [7] ∧
    ∃ db2 doc, createDocument neverFail reqFolioSeven dbWithFolioSeven =
        (db2, .ok doc) ∧ doc.folio = 7 :=
  ⟨by decide,
    (C5_explicit_folio_verbatim neverFail reqFolioSeven dbWithFolioSeven 7
      rfl (by decide)).2 (fun _ => rfl)⟩

/-- Counterexample to C6 as stated: a creation request with neither `type`
nor `company_id` is not rejected — no validation exists — and a document
row is persisted. -/
theorem C6_no_validation_counterexample :
    blankRequest.type = none ∧ blankRequest.company_id = none ∧
    (createDocument neverFail blankRequest emptyDB).2 =
      .ok (headerRow emptyDB blankRequest) ∧
    (createDocument neverFail blankRequest emptyDB).1.documents.length = 1 :=
  ⟨rfl, rfl, rfl, rfl⟩

/-- C6 (amended).  No input validation is performed: a creation request
missing `type` and `company_id` proceeds through the folio read and the
inserts, persisting a document with null `type` and `company_id`. -/
theorem C6_no_validation (fail : Nat → Bool) (req : CreateDocumentRequest)
    (db : DB) (ht : req.type = none) (hc : req.company_id = none)
    (hnf : ∀ n, fail n = false) :
    ∃ db2 doc, createDocument fail req db = (db2, .ok doc) ∧
      doc.type = none ∧ doc.company_id = none ∧
      db2.documents.length = db.documents.length + 1 := by
  obtain ⟨db2, hcd⟩ := createDocument_succeeds fail req db hnf
  refine ⟨db2, headerRow db req, hcd, ht, hc, ?_⟩
  obtain ⟨-, -, hrows⟩ := createDocument_ok_elim hcd
  obtain ⟨hdocs, -, -, -⟩ :=
    insertItemRows_ok fail (headerRow db req).id req.items _ db2 1 hrows
  rw [hdocs]
  simp

/-- Witness for the amended C6: the all-absent request on the empty store
persists one document with null type and company. -/
theorem C6_no_validation_witness :
    ∃ db2 doc, createDocument neverFail blankRequest emptyDB =
        (db2, .ok doc) ∧
      doc.type = none ∧ doc.company_id = none ∧
      db2.documents.length = emptyDB.documents.length + 1 :=
  C6_no_validation neverFail blankRequest emptyDB rfl rfl (fun _ => rfl)

/-- C10.  A caller-supplied falsy folio (0; `null` and an absent field
are modelled alike as `none`, see C2) does not get stored: the truthiness
test sends the request down the automatic-allocation path, which assigns
`greatest(max existing folio of the type + 1, 6060)`. -/
theorem C10_falsy_folio_takes_auto (fail : Nat → Bool)
    (req : CreateDocumentRequest) (db db2 : DB) (doc : Document)
    (hf : req.folio = some 0)
    (h : createDocument fail req db = (db2, .ok doc)) :
    (∀ m, sqlMax (foliosOfType db req.type) = some m →
      doc.folio = max (m + 1) 6060) ∧
    (foliosOfType db req.type = [] → doc.folio = 6060) := by
  obtain ⟨-, hdoc, -⟩ := createDocument_ok_elim h
  have hres : doc.folio = folioQuery db req.type := by
    rw [hdoc]
    show resolveFolio db req = _
    rw [resolveFolio, hf]
    rfl
  constructor
  · intro m hm
    rw [hres, folioQuery, hm]
    rfl
  · intro hnil
    rw [hres, folioQuery, hnil]
    rfl

/-- Witness for C10: supplying `folio = 0` on a store whose max FAC folio
is 7 allocates `greatest(7 + 1, 6060) = 6060` instead of storing 0. -/
theorem C10_falsy_folio_witness :
    sqlMax (foliosOfType dbWithFolioSeven reqFolioZero.type) = some 7 ∧
      folioZeroDoc.folio = max (7 + 1) 6060 :=
  ⟨by decide,
    (C10_falsy_folio_takes_auto neverFail reqFolioZero dbWithFolioSeven
      dbFolioZero folioZeroDoc rfl rfl).1 7 (by decide)⟩

/-- C7.  Requesting the rendered view of an id matching no document
produces the NotFound outcome (`none`, answered as HTTP 404) and no page;
the endpoint issues only reads, so for every id the store is unchanged. -/
theorem C7_render_not_found (db : DB) (id : ℤ) :
    ((∀ d ∈ db.documents, d.id ≠ id) → renderDocumentView db id = none) ∧
    (renderEndpoint db id).2 = db := by
  constructor
  · intro hall
    have hfil : db.documents.filter (fun d => d.id == id) = [] := by
      rw [List.filter_eq_nil]
      intro d hd
      simpa using hall d hd
    rw [renderDocumentView, hfil]
    rfl
  · rfl

/-- Witness for C7 at the spec scenario: rendering id 99999 on a store
whose only document has id 1 yields NotFound and leaves the store as it
was. -/
theorem C7_render_not_found_witness :
    renderDocumentView dbOneDoc 99999 = none ∧
      (renderEndpoint dbOneDoc 99999).2 = dbOneDoc :=
  ⟨(C7_render_not_found dbOneDoc 99999).1 (by decide),
    (C7_render_not_found dbOneDoc 99999).2⟩

/-- C9.  The status update touches nothing but the status of the addressed
document: companies and items are untouched, the document count is
unchanged, every document keeps every field except possibly `status`, and
a document whose id differs from the addressed one is entirely unchanged. -/
theorem C9_status_update_frame (db : DB) (id : ℤ) (st : Option String) :
    (updateStatus db id st).companies = db.companies ∧
    (updateStatus db id st).document_items = db.document_items ∧
    (updateStatus db id st).documents.length = db.documents.length ∧
    (∀ i : Nat, ((updateStatus db id st).documents.get? i).map docSansStatus =
      (db.documents.get? i).map docSansStatus) ∧
    (∀ i : Nat, ∀ d, db.documents.get? i = some d → d.id ≠ id →
      (updateStatus db id st).documents.get? i = some d) := by
  refine ⟨rfl, rfl, by simp [updateStatus], ?_, ?_⟩
  · intro i
    rw [updateStatus]
    simp only [List.get?_map]
    cases hgd : db.documents.get? i with
    | none => rfl
    | some d =>
      simp only [Option.map_some']
      by_cases hd : d.id == id
      · simp [hd, docSansStatus]
      · simp [hd, docSansStatus]
  · intro i d hgd hne
    rw [updateStatus]
    simp only [List.get?_map, hgd, Option.map_some']
    have hb : (d.id == id) = false := by simpa using hne
    simp [hb]

/-- Witness for C9: updating the status of document 1 on the two-document
store leaves document 2 identical and document 1 identical outside its
status field. -/
theorem C9_status_update_frame_witness :
    (updateStatus dbTwoDocs 1 (some "Pagada")).documents.get? 1 =
        some docCot2 ∧
      ((updateStatus dbTwoDocs 1 (some "Pagada")).documents.get? 0).map
          docSansStatus =
        (dbTwoDocs.documents.get? 0).map docSansStatus :=
  ⟨(C9_status_update_frame dbTwoDocs 1 (some "Pagada")).2.2.2.2 1 docCot2
      rfl (by decide),
    (C9_status_update_frame dbTwoDocs 1 (some "Pagada")).2.2.2.1 0⟩

/-- The seed of a left max-fold bounds the fold from below. -/
theorem le_foldl_max (xs : List ℤ) : ∀ x : ℤ, x ≤ xs.foldl max x := by
  induction xs with
  | nil => intro x; exact le_refl x
  | cons y ys ih =>
    intro x
    exact le_trans (le_max_left x y) (ih (max x y))

/-- Every member of the list bounds a left max-fold from below. -/
theorem mem_le_foldl_max (xs : List ℤ) :
    ∀ (x f : ℤ), f ∈ xs → f ≤ xs.foldl max x := by
  induction xs with
  | nil => intro x f hf; cases hf
  | cons y ys ih =>
    intro x f hf
    rcases List.mem_cons.mp hf with h | h
    · subst h
      exact le_trans (le_max_right x f) (le_foldl_max ys (max x f))
    · exact ih (max x y) f h

/-- Every folio in the scanned column is at most the SQL `MAX`. -/
theorem mem_le_sqlMax {f : ℤ} {l : List ℤ} (hf : f ∈ l) :
    ∃ m, sqlMax l = some m ∧ f ≤ m := by
  cases l with
  | nil => cases hf
  | cons x xs =>
    refine ⟨xs.foldl max x, rfl, ?_⟩
    rcases List.mem_cons.mp hf with h | h
    · subst h; exact le_foldl_max xs f
    · exact mem_le_foldl_max xs x f h

/-- The allocated candidate strictly dominates every folio currently
stored for the queried type. -/
theorem folioQuery_gt (db : DB) (t : Option String) (f : ℤ)
    (hf : f ∈ foliosOfType db t) : f < folioQuery db t := by
  obtain ⟨m, hm, hfm⟩ := mem_le_sqlMax hf
  rw [folioQuery, hm]
  calc f ≤ m := hfm
    _ < m + 1 := by omega
    _ ≤ max (coalesce0 (some m) + 1) 6060 := by
        rw [coalesce0, Option.getD_some]; exact le_max_left _ _

/-- `sqlEqStr x (some t)` holds exactly when the column equals the
parameter. -/
theorem sqlEqStr_some_iff (x : Option String) (t : String) :
    sqlEqStr x (some t) = true ↔ x = some t := by
  cases x with
  | none => simp [sqlEqStr]
  | some a => simp [sqlEqStr]

/-- A status update changes no document's type or folio, hence no
per-type folio column. -/
theorem foliosOfType_updateStatus (db : DB) (id : ℤ) (st : Option String)
    (t : Option String) :
    foliosOfType (updateStatus db id st) t = foliosOfType db t := by
  rw [foliosOfType, foliosOfType, updateStatus]
  induction db.documents with
  | nil => rfl
  | cons d rest ih =>
    simp only [List.map_cons, List.filter_cons]
    by_cases hd : d.id == id
    · simp only [hd, if_true]
      by_cases hty : sqlEqStr d.type t
      · simpa [hty] using ih
      · simpa [hty] using ih
    · simp only [hd, Bool.false_eq_true, if_false]
      by_cases hty : sqlEqStr d.type t
      · simpa [hty] using ih
      · simpa [hty] using ih

/-- Deleting a document only removes entries from each per-type folio
column. -/
theorem foliosOfType_delete (db : DB) (id : ℤ) (t : Option String) :
    List.Sublist (foliosOfType (deleteDocument db id) t) (foliosOfType db t) := by
  rw [foliosOfType, foliosOfType, deleteDocument]
  exact ((List.filter_sublist _).filter _).map _

/-- A creation either rolls back (the store is the given one) or commits,
appending exactly the built header row to the documents table. -/
theorem createDocument_fst (fail : Nat → Bool) (req : CreateDocumentRequest)
    (db : DB) :
    (createDocument fail req db).1 = db ∨
      (createDocument fail req db).1.documents =
        db.documents ++ [headerRow db req] := by
  by_cases hf : fail 0
  · left
    simp [createDocument, createDocumentTx, hf]
  · cases hrows : insertItemRows fail (headerRow db req).id req.items
        { db with documents := db.documents ++ [headerRow db req]
                  nextDocumentId := db.nextDocumentId + 1 } 1 with
    | error e =>
      left
      simp [createDocument, createDocumentTx, hf, hrows]
    | ok dbr =>
      right
      obtain ⟨hdocs, -, -, -⟩ :=
        insertItemRows_ok fail (headerRow db req).id req.items _ dbr 1 hrows
      simp only [createDocument, createDocumentTx, hf, Bool.false_eq_true,
        if_false, hrows]
      exact hdocs

/-- The per-type folio column after appending one document: unchanged when
the type differs, extended by the new folio when it matches. -/
theorem foliosOfType_append (db : DB) (doc : Document) (docs2 : List Document)
    (t : Option String) (h : docs2 = db.documents ++ [doc]) :
    (docs2.filter (fun d => sqlEqStr d.type t)).map Document.folio =
      foliosOfType db t ++
        (if sqlEqStr doc.type t then [doc.folio] else []) := by
  subst h
  rw [List.filter_append, List.map_append, foliosOfType]
  by_cases hty : sqlEqStr doc.type t
  · simp [hty]
  · simp [hty]

/-- Serving one request preserves the per-type folio discipline, provided
a creation uses automatic allocation. -/
theorem folioInvariant_applyOp (db : DB) (op : Op)
    (hauto : opAuto op = true) (hinv : folioInvariant db) :
    folioInvariant (applyOp db op) := by
  cases op with
  | setStatus id st =>
    intro t
    show (foliosOfType (updateStatus db id st) (some t)).Pairwise (· < ·)
    rw [foliosOfType_updateStatus]
    exact hinv t
  | remove id =>
    intro t
    exact (hinv t).sublist (foliosOfType_delete db id (some t))
  | create fail req =>
    intro t
    show (foliosOfType (createDocument fail req db).1 (some t)).Pairwise (· < ·)
    rcases createDocument_fst fail req db with h | h
    · rw [h]
      exact hinv t
    · rw [folioInvariant] at hinv
      rw [foliosOfType,
        foliosOfType_append db (headerRow db req) _ (some t) h]
      by_cases hty : sqlEqStr (headerRow db req).type (some t)
      · rw [if_pos hty]
        rw [List.pairwise_append]
        refine ⟨hinv t, List.pairwise_singleton _ _, ?_⟩
        intro f hfmem g hg
        rw [List.mem_singleton] at hg
        subst hg
        have htype : req.type = some t := (sqlEqStr_some_iff _ t).mp hty
        have hfolio : (headerRow db req).folio = folioQuery db (some t) := by
          show resolveFolio db req = _
          rw [resolveFolio]
          have : jsTruthyInt req.folio = false := by
            simpa [opAuto] using hauto
          rw [this, htype]
          rfl
        rw [hfolio]
        exact folioQuery_gt db (some t) f hfmem
      · rw [if_neg hty, List.append_nil]
        exact hinv t

/-- C4 (amended).  Along every sequence of document requests whose
creations all use automatic folio allocation, every reachable store keeps,
for each (non-null) document type, the folios of the *stored* documents of
that type pairwise distinct and strictly increasing in creation order; a
folio whose document has been deleted may however be reallocated (see the
counterexample). -/
theorem C4_auto_folios_strictly_increase (ops : List Op)
    (h : autoOps ops = true) :
    ∀ t : String,
      (foliosOfType (runOps emptyDB ops) (some t)).Pairwise (· < ·) := by
  suffices hgen : ∀ (l : List Op) (db : DB), autoOps l = true →
      folioInvariant db → folioInvariant (runOps db l) by
    refine hgen ops emptyDB h ?_
    intro t
    exact List.Pairwise.nil
  intro l
  induction l with
  | nil => intro db _ hinv; exact hinv
  | cons op rest ih =>
    intro db hl hinv
    rw [autoOps, List.all_cons, Bool.and_eq_true] at hl
    exact ih (applyOp db op) hl.2 (folioInvariant_applyOp db op hl.1 hinv)

/-- Witness for the amended C4: a four-request trace (two creations, a
deletion, another creation) keeps the INV folios strictly increasing. -/
theorem C4_auto_folios_witness :
    autoOps opsAutoSample = true ∧
      (foliosOfType (runOps emptyDB opsAutoSample) (some "INV")).Pairwise
        (· < ·) :=
  ⟨rfl, C4_auto_folios_strictly_increase opsAutoSample rfl "INV"⟩

/-- Counterexample to C4 as stated: folio 6060 is allocated to the first
INV document, that document is deleted, and the next automatic allocation
hands out 6060 again — an assigned folio is reused after its document is
deleted. -/
theorem C4_folio_reuse_counterexample :
    (createDocument neverFail reqINV emptyDB).1.documents.map Document.folio
        = [6060] ∧
      (runOps emptyDB opsReuse).documents.map Document.folio = [6060] ∧
      (runOps emptyDB opsReuse).documents.map Document.id = [2] := by
  refine ⟨by decide, by decide, by decide⟩

/-- A lone `%` pattern matches every text. -/
theorem likeMatch_all_pct (l : List Char) : likeMatch ['%'] l = true := by
  induction l with
  | nil => rw [likeMatch]; simp [likeMatch]
  | cons c t ih => rw [likeMatch]; simp [likeMatch, ih]

/-- A leading-run test against the empty text succeeds only for the empty
pattern. -/
theorem leadsWith_nil_eq (p : List Char) : leadsWith p [] = p.isEmpty := by
  cases p <;> rfl

/-- A wildcard-free pattern followed by `%` matches exactly the texts it
leads. -/
theorem likeMatch_append_pct (p : List Char) (hp : noWildcards p = true) :
    ∀ l, likeMatch (p ++ ['%']) l = leadsWith p l := by
  induction p with
  | nil => intro l; simpa [leadsWith] using likeMatch_all_pct l
  | cons a ps ih =>
    rw [noWildcards, List.all_cons, Bool.and_eq_true] at hp
    obtain ⟨ha, hps⟩ := hp
    have ha1 : ¬(a = '%') := by simpa using (Bool.and_eq_true _ _).mp ha |>.1
    have ha2 : ¬(a = '_') := by simpa using (Bool.and_eq_true _ _).mp ha |>.2
    intro l
    cases l with
    | nil =>
      rw [List.cons_append, likeMatch]
      simp [ha1, leadsWith]
    | cons c t =>
      rw [List.cons_append, likeMatch]
      simp only [ha1, if_false, ha2, leadsWith]
      rw [ih hps t]

/-- The `%p%` pattern, for wildcard-free `p`, matches exactly the texts in
which `p` occurs contiguously. -/
theorem likeMatch_wrap (p : List Char) (hp : noWildcards p = true) :
    ∀ l, likeMatch ('%' :: (p ++ ['%'])) l = occursIn p l := by
  intro l
  induction l with
  | nil =>
    rw [likeMatch]
    simp only [if_pos rfl]
    rw [likeMatch_append_pct p hp, leadsWith_nil_eq]
    simp [occursIn]
  | cons c t ih =>
    rw [likeMatch]
    simp only [if_pos rfl]
    rw [likeMatch_append_pct p hp, ih]
    rfl

/-- Leading-run tests are prefix decompositions. -/
theorem leadsWith_iff (p : List Char) :
    ∀ l, leadsWith p l = true ↔ ∃ t, l = p ++ t := by
  induction p with
  | nil => intro l; simp [leadsWith]
  | cons a ps ih =>
    intro l
    cases l with
    | nil => simp [leadsWith]
    | cons c t =>
      rw [leadsWith]
      simp only [Bool.and_eq_true, beq_iff_eq]
      constructor
      · rintro ⟨rfl, h⟩
        obtain ⟨u, rfl⟩ := (ih t).mp h
        exact ⟨u, rfl⟩
      · rintro ⟨u, hu⟩
        rw [List.cons_append] at hu
        injection hu with h1 h2
        exact ⟨h1.symm, (ih t).mpr ⟨u, h2⟩⟩

/-- Occurrence tests are substring decompositions. -/
theorem occursIn_iff (p : List Char) :
    ∀ l, occursIn p l = true ↔ ∃ xs ys, l = xs ++ p ++ ys := by
  intro l
  induction l with
  | nil =>
    rw [occursIn]
    simp only [List.isEmpty_iff]
    constructor
    · rintro rfl; exact ⟨[], [], rfl⟩
    · rintro ⟨xs, ys, h⟩
      rcases List.append_eq_nil.mp h.symm with ⟨h1, h2⟩
      exact (List.append_eq_nil.mp h1).2
  | cons c t ih =>
    rw [occursIn]
    simp only [Bool.or_eq_true, ih, leadsWith_iff]
    constructor
    · rintro (⟨u, hu⟩ | ⟨xs, ys, rfl⟩)
      · exact ⟨[], u, by simpa using hu⟩
      · exact ⟨c :: xs, ys, by simp⟩
    · rintro ⟨xs, ys, h⟩
      cases xs with
      | nil => exact Or.inl ⟨ys, by simpa using h⟩
      | cons x xs2 =>
        right
        rw [List.cons_append, List.cons_append] at h
        injection h with h1 h2
        exact ⟨xs2, ys, h2⟩

/-- Lowercasing the `%…%` pattern wraps the lowercased term in literal
`%` characters. -/
theorem lowerChars_pattern (s : String) :
    lowerChars (ilikePattern s) = '%' :: (lowerChars s ++ ['%']) := by
  rw [ilikePattern, lowerChars, String.data_append, String.data_append,
    List.map_append, List.map_append]
  rfl

/-- `ILIKE '%s%'` on a non-null text, for a wildcard-free term `s`, is the
case-insensitive occurrence test. -/
theorem sqlIlike_pattern_some (txt s : String)
    (hw : noWildcards (lowerChars s) = true) :
    sqlIlike (some txt) (ilikePattern s) =
      occursIn (lowerChars s) (lowerChars txt) := by
  rw [sqlIlike, lowerChars_pattern]
  exact likeMatch_wrap (lowerChars s) hw (lowerChars txt)

/-- The three-way search condition, for a wildcard-free term, is the
disjunction of three case-insensitive substring decompositions. -/
theorem searchCond_iff (d : Document) (c : Company) (s : String)
    (hw : noWildcards (lowerChars s) = true) :
    searchCond d c s = true ↔
      ((∃ nm pre post, c.name = some nm ∧
          lowerChars nm = pre ++ lowerChars s ++ post) ∨
        (∃ pre post,
          lowerChars (toString d.folio) = pre ++ lowerChars s ++ post) ∨
        (∃ pre post, lowerChars d.reference = pre ++ lowerChars s ++ post)) := by
  cases hn : c.name with
  | none =>
    rw [searchCond, hn]
    have h0 : sqlIlike none (ilikePattern s) = false := rfl
    rw [h0, sqlIlike_pattern_some _ s hw, sqlIlike_pattern_some _ s hw]
    simp only [Bool.or_eq_true, Bool.false_eq_true, false_or, occursIn_iff]
    constructor
    · rintro (h | h)
      · exact Or.inr (Or.inl h)
      · exact Or.inr (Or.inr h)
    · rintro (⟨nm, pre, post, hnm, -⟩ | h | h)
      · cases hnm
      · exact Or.inl h
      · exact Or.inr h
  | some nm =>
    rw [searchCond, hn]
    rw [sqlIlike_pattern_some nm s hw, sqlIlike_pattern_some _ s hw,
      sqlIlike_pattern_some d.reference s hw]
    simp only [Bool.or_eq_true, occursIn_iff]
    constructor
    · rintro ((h | h) | h)
      · obtain ⟨pre, post, hd2⟩ := h
        exact Or.inl ⟨nm, pre, post, rfl, hd2⟩
      · exact Or.inr (Or.inl h)
      · exact Or.inr (Or.inr h)
    · rintro (⟨nm2, pre, post, hnm2, hdec⟩ | h | h)
      · injection hnm2 with hnm2
        subst hnm2
        exact Or.inl (Or.inl ⟨pre, post, hdec⟩)
      · exact Or.inl (Or.inr h)
      · exact Or.inr h

/-- Membership in the document–company join. -/
theorem mem_joinCompanies (db : DB) (p : Document × Company) :
    p ∈ joinCompanies db ↔
      p.1 ∈ db.documents ∧ p.2 ∈ db.companies ∧
        sqlEqIdOpt p.1.company_id p.2.id = true := by
  rw [joinCompanies, List.mem_flatMap]
  constructor
  · rintro ⟨d0, hd0, hp⟩
    rw [List.mem_map] at hp
    obtain ⟨c0, hc0, rfl⟩ := hp
    rw [List.mem_filter] at hc0
    exact ⟨hd0, hc0.1, hc0.2⟩
  · rintro ⟨h1, h2, h3⟩
    refine ⟨p.1, h1, ?_⟩
    rw [List.mem_map]
    exact ⟨p.2, List.mem_filter.mpr ⟨h2, h3⟩, rfl⟩

/-- C8 (amended to wildcard-free search terms).  With a search term free
of the SQL LIKE wildcards present, a document is returned by the list
endpoint iff the term occurs, case-insensitively and contiguously
(substring), in the owning company's name OR in the folio rendered as text
OR in the reference field — and, when a type filter is also given, the
type additionally matches it exactly.  A term containing `%` or `_` is
instead interpreted as a LIKE pattern (see the counterexample). -/
theorem C8_search_filter (db : DB) (type? : Option String) (s : String)
    (d : Document) (c : Company)
    (hnd : (db.companies.map Company.id).Nodup)
    (hd : d ∈ db.documents) (hc : c ∈ db.companies)
    (hcid : d.company_id = some c.id)
    (hw : noWildcards (lowerChars s) = true)
    (hs : s ≠ "") :
    d ∈ (listDocuments db type? (some s)).map Prod.fst ↔
      ((∃ nm pre post, c.name = some nm ∧
          lowerChars nm = pre ++ lowerChars s ++ post) ∨
        (∃ pre post,
          lowerChars (toString d.folio) = pre ++ lowerChars s ++ post) ∨
        (∃ pre post, lowerChars d.reference = pre ++ lowerChars s ++ post)) ∧
      (jsTruthyStr type? = true → sqlEqStr d.type type? = true) := by
  have hjs : jsTruthyStr (some s) = true := by
    simpa [jsTruthyStr] using hs
  have hlist : listDocuments db type? (some s) =
      ((if jsTruthyStr type? then
          (joinCompanies db).filter (fun p => sqlEqStr p.1.type type?)
        else joinCompanies db).filter
          (fun p => searchCond p.1 p.2 s)).mergeSort
        (fun a b => decide (b.1.id ≤ a.1.id)) := by
    simp only [listDocuments, hjs, if_true, Option.getD_some]
  rw [hlist, List.mem_map]
  constructor
  · rintro ⟨p, hp, hpd⟩
    have hp2 := (List.mergeSort_perm _ _).mem_iff.mp hp
    rw [List.mem_filter] at hp2
    obtain ⟨hpA, hpS⟩ := hp2
    have hbase : p ∈ joinCompanies db ∧
        (jsTruthyStr type? = true → sqlEqStr p.1.type type? = true) := by
      by_cases hty : jsTruthyStr type? = true
      · rw [if_pos hty] at hpA
        rw [List.mem_filter] at hpA
        exact ⟨hpA.1, fun _ => hpA.2⟩
      · rw [if_neg hty] at hpA
        exact ⟨hpA, fun hco => absurd hco hty⟩
    obtain ⟨hjoin, htyOk⟩ := hbase
    rw [mem_joinCompanies] at hjoin
    obtain ⟨hp1mem, hp2mem, hpid⟩ := hjoin
    subst hpd
    have hcc : p.2 = c := by
      rw [hcid] at hpid
      simp only [sqlEqIdOpt, beq_iff_eq] at hpid
      exact List.inj_on_of_nodup_map hnd hp2mem hc hpid.symm
    refine ⟨?_, htyOk⟩
    rw [← searchCond_iff p.1 c s hw, ← hcc]
    exact hpS
  · rintro ⟨hcond, htyOk⟩
    refine ⟨(d, c), ?_, rfl⟩
    rw [(List.mergeSort_perm _ _).mem_iff, List.mem_filter]
    have hjmem : (d, c) ∈ joinCompanies db := by
      rw [mem_joinCompanies]
      exact ⟨hd, hc, by rw [hcid]; simp [sqlEqIdOpt]⟩
    constructor
    · by_cases hty : jsTruthyStr type? = true
      · rw [if_pos hty, List.mem_filter]
        exact ⟨hjmem, htyOk hty⟩
      · rw [if_neg hty]
        exact hjmem
    · exact (searchCond_iff d c s hw).mpr hcond

/-- Witness for C8: on the two-document store, searching for "acme" (a
case-insensitive fragment of the company name "Acme Ltda") returns the
invoice. -/
theorem C8_search_filter_witness :
    docFac1 ∈ (listDocuments dbTwoDocs none (some "acme")).map Prod.fst :=
  (C8_search_filter dbTwoDocs none "acme" docFac1 companyAcme (by decide)
      (by decide) (by decide) rfl (by decide) (by decide)).mpr
    ⟨Or.inl ⟨"Acme Ltda", [], (" ltda".data), rfl, by decide⟩,
      fun h => by simp [jsTruthyStr] at h⟩

/-- A pattern starting with `%` matches whatever its tail matches. -/
theorem likeMatch_pct_cons (ps l : List Char) (h : likeMatch ps l = true) :
    likeMatch ('%' :: ps) l = true := by
  rw [likeMatch.eq_def]
  simp [h]

/-- Counterexample to C8 as stated: the raw search term is interpolated
into the `ILIKE '%term%'` pattern, so a term containing a LIKE wildcard is
not matched as a substring — the term `%` matches every document.  The
invoice is returned for the search term `%` although `%` occurs as a
substring neither in the owning company's name nor in the folio rendered
as text nor in the reference field. -/
theorem C8_wildcard_counterexample :
    docFac1.company_id = some companyAcme.id ∧
      docFac1 ∈ (listDocuments dbTwoDocs none (some "%")).map Prod.fst ∧
      occursIn (lowerChars "%") (lowerChars "Acme Ltda") = false ∧
      occursIn (lowerChars "%") (lowerChars (toString docFac1.folio)) = false ∧
      occursIn (lowerChars "%") (lowerChars docFac1.reference) = false := by
  have hall : ∀ l, likeMatch ['%', '%', '%'] l = true := fun l =>
    likeMatch_pct_cons _ _ (likeMatch_pct_cons _ _ (likeMatch_all_pct l))
  have hsc : searchCond docFac1 companyAcme "%" = true := by
    rw [searchCond]
    have hcn : companyAcme.name = some "Acme Ltda" := rfl
    have h1 : sqlIlike companyAcme.name (ilikePattern "%") = true := by
      rw [hcn, sqlIlike]
      have hpat : lowerChars (ilikePattern "%") = ['%', '%', '%'] := by decide
      rw [hpat]
      exact hall _
    simp [h1]
  have hmem2 : (docFac1, companyAcme) ∈
      (joinCompanies dbTwoDocs).filter (fun p => searchCond p.1 p.2 "%") := by
    rw [List.mem_filter]
    exact ⟨by decide, hsc⟩
  refine ⟨rfl, ?_, by decide, by decide, by decide⟩
  rw [List.mem_map]
  exact ⟨(docFac1, companyAcme),
    ((List.mergeSort_perm _ _).mem_iff).mpr hmem2, rfl⟩
